import Mathlib

/-
Verification of the test-collection-and-reporting harness described by the
repository specification, together with the concrete test-case groups
defined in src/unit_testing.ipynb.

The repository source contains the entry point `test(klass)` (notebook
cell 1) and the concrete test-case classes (cells 3, 6, 8, 10, 12, 14, 16).
The loader and runner the entry point delegates to are not part of the
repository source, so the harness semantics below are modelled from the
specification (section 4.1): statements of a test body are embedded as a
small statement language (assignment, assertion, raising an exception,
cleanup registration, subtest scopes), and the runner executes each
discovered method from a fresh context.
-/

namespace UnitTesting

/-- Outcome recorded for a test method: Pass, Failure (assertion violated,
with the violation details), or Error (unexpected exception detail). -/
inductive Outcome where
  | pass : Outcome
  | failure : List String → Outcome
  | error : String → Outcome
deriving DecidableEq

/-- An exception escaping a body: either the assertion-violation signal
raised by the assertion library, or any other exception. -/
inductive Exc where
  | assertionFailed : String → Exc
  | otherError : String → Exc
deriving DecidableEq

/-- The diagnostic detail carried by an exception. -/
def Exc.detail : Exc → String
  | .assertionFailed d => d
  | .otherError d => d

/-- A registered cleanup action: an identifier and whether running it
succeeds. -/
structure Cleanup where
  cid : Nat
  ok : Bool
deriving DecidableEq

/-- Modelled from the spec: a primitive statement of a test body over a
fixture context of type `σ`: an assignment, an assertion (predicate plus a
detail message computed from the current context), raising a non-assertion
exception, or registering a cleanup action. -/
inductive PrimStmt (σ : Type) where
  | set : (σ → σ) → PrimStmt σ
  | assertThat : (σ → Bool) → (σ → String) → PrimStmt σ
  | raiseExc : String → PrimStmt σ
  | addCleanup : Cleanup → PrimStmt σ

/-- Modelled from the spec: a statement of a test body: a primitive
statement, or a SubTest scope with a label and an inner body. -/
inductive Stmt (σ : Type) where
  | prim : PrimStmt σ → Stmt σ
  | subTest : String → List (PrimStmt σ) → Stmt σ

/-- Result of executing a sequence of primitive statements: the escaping
exception if any, the final context, and the cleanup list in registration
order. -/
structure PrimRes (σ : Type) where
  result : Option Exc
  ctx : σ
  cleanups : List Cleanup
deriving Inhabited

/-- Modelled from the spec: execute a sequence of primitive statements. An
assertion whose predicate fails raises the assertion-violation signal; a
raised exception aborts the remaining statements; cleanup registrations
are appended in registration order. -/
def execPrims {σ : Type} : List (PrimStmt σ) → σ → List Cleanup → PrimRes σ
  | [], s, cs => ⟨none, s, cs⟩
  | .set f :: rest, s, cs => execPrims rest (f s) cs
  | .assertThat p d :: rest, s, cs =>
      if p s then execPrims rest s cs
      else ⟨some (.assertionFailed (d s)), s, cs⟩
  | .raiseExc d :: _, s, cs => ⟨some (.otherError d), s, cs⟩
  | .addCleanup c :: rest, s, cs => execPrims rest s (cs ++ [c])

/-- Result of executing a body: the escaping exception if any, the final
context, the cleanups in registration order, and the captured SubTest
failure labels in order. -/
structure BodyRes (σ : Type) where
  result : Option Exc
  ctx : σ
  cleanups : List Cleanup
  subFailures : List String

/-- Modelled from the spec: execute a body. A SubTest scope whose inner
statements raise the assertion-violation signal captures the failure,
attributes it to the label, and continues with the rest of the body; any
other exception escapes. -/
def execStmts {σ : Type} : List (Stmt σ) → σ → List Cleanup → List String → BodyRes σ
  | [], s, cs, subs => ⟨none, s, cs, subs⟩
  | .prim (.set f) :: rest, s, cs, subs => execStmts rest (f s) cs subs
  | .prim (.assertThat p d) :: rest, s, cs, subs =>
      if p s then execStmts rest s cs subs
      else ⟨some (.assertionFailed (d s)), s, cs, subs⟩
  | .prim (.raiseExc d) :: _, s, cs, subs => ⟨some (.otherError d), s, cs, subs⟩
  | .prim (.addCleanup c) :: rest, s, cs, subs => execStmts rest s (cs ++ [c]) subs
  | .subTest label inner :: rest, s, cs, subs =>
      match (execPrims inner s cs).result with
      | some (.assertionFailed _) =>
          execStmts rest (execPrims inner s cs).ctx (execPrims inner s cs).cleanups
            (subs ++ [label])
      | some (.otherError d) =>
          ⟨some (.otherError d), (execPrims inner s cs).ctx,
            (execPrims inner s cs).cleanups, subs⟩
      | none =>
          execStmts rest (execPrims inner s cs).ctx (execPrims inner s cs).cleanups subs

/-- Run a list of cleanup actions front to back, returning the executed
identifiers in order and the identifiers of the actions that failed. -/
def runCleanupList : List Cleanup → List Nat × List Nat
  | [] => ([], [])
  | c :: rest =>
      let r := runCleanupList rest
      (c.cid :: r.1, if c.ok then r.2 else c.cid :: r.2)

/-- Modelled from the spec: drain the cleanup stack: the most recently
registered action (the last of the registration-order list) runs first. -/
def drainCleanups (stack : List Cleanup) : List Nat × List Nat :=
  runCleanupList stack.reverse

/-- One entry of the Report: the method identity, its Outcome, the trace of
executed cleanup identifiers, and the identifiers of failed cleanups. -/
structure MethodResult where
  name : String
  outcome : Outcome
  cleanupsExecuted : List Nat
  cleanupFailures : List Nat
deriving DecidableEq

/-- A test method: a named body. -/
structure TestMethod (σ : Type) where
  name : String
  body : List (Stmt σ)

/-- A test-case group: a name, the named callables defined on it (in
definition order, possibly including one named setUp), and the fresh
instance-level context value each method run starts from. -/
structure TestCaseGroup (σ : Type) where
  name : String
  methods : List (TestMethod σ)
  initCtx : σ

/-- Modelled from the spec: the primary outcome of a body execution: a
raised assertion signal means Failure, any other exception means Error,
normal completion means Failure listing the captured SubTest labels when
there are any and Pass otherwise. -/
def bodyOutcome {σ : Type} (r : BodyRes σ) : Outcome :=
  match r.result with
  | some (.assertionFailed d) => .failure [d]
  | some (.otherError d) => .error d
  | none => if r.subFailures.isEmpty then .pass else .failure r.subFailures

/-- Modelled from the spec: run one method: start from the fresh context,
execute the setup (an exception there is recorded as Error and the body is
skipped), then the body, then drain all registered cleanups regardless of
outcome. -/
def runMethod {σ : Type} (initCtx : σ) (setup : List (Stmt σ)) (m : TestMethod σ) :
    MethodResult :=
  match (execStmts setup initCtx [] []).result with
  | some e =>
      let d := drainCleanups (execStmts setup initCtx [] []).cleanups
      ⟨m.name, .error e.detail, d.1, d.2⟩
  | none =>
      let bres := execStmts m.body (execStmts setup initCtx [] []).ctx
        (execStmts setup initCtx [] []).cleanups (execStmts setup initCtx [] []).subFailures
      let d := drainCleanups bres.cleanups
      ⟨m.name, bodyOutcome bres, d.1, d.2⟩

/-- The setup procedure of a group: the body of the callable named setUp,
empty when none is defined. -/
def setUpOf {σ : Type} (g : TestCaseGroup σ) : List (Stmt σ) :=
  match g.methods.find? (fun m => m.name == "setUp") with
  | some m => m.body
  | none => []

/-- Lexicographic comparison of character lists, by code point. -/
def lexLe : List Char → List Char → Bool
  | [], _ => true
  | _ :: _, [] => false
  | a :: as, b :: bs =>
      if a.toNat < b.toNat then true
      else if b.toNat < a.toNat then false
      else lexLe as bs

/-- Lexicographic comparison of strings, by code point. -/
def strLe (s t : String) : Bool := lexLe s.data t.data

theorem lexLe_total : ∀ as bs : List Char, lexLe as bs = true ∨ lexLe bs as = true
  | [], _ => Or.inl rfl
  | _ :: _, [] => Or.inr rfl
  | a :: as, b :: bs => by
      simp only [lexLe]
      rcases Nat.lt_trichotomy a.toNat b.toNat with h | h | h
      · left
        simp [h]
      · have h1 : ¬ a.toNat < b.toNat := by omega
        have h2 : ¬ b.toNat < a.toNat := by omega
        simpa [h1, h2] using lexLe_total as bs
      · right
        simp [h]

theorem lexLe_trans :
    ∀ as bs cs : List Char, lexLe as bs = true → lexLe bs cs = true → lexLe as cs = true
  | [], _, _, _, _ => rfl
  | a :: as, [], cs, hab, _ => by simp [lexLe] at hab
  | a :: as, b :: bs, [], _, hbc => by simp [lexLe] at hbc
  | a :: as, b :: bs, c :: cs, hab, hbc => by
      simp only [lexLe] at hab hbc ⊢
      split at hab
      · rename_i h1
        split at hbc
        · rename_i h3
          rw [if_pos (by omega : a.toNat < c.toNat)]
        · rename_i h3
          split at hbc
          · exact Bool.noConfusion hbc
          · rename_i h4
            rw [if_pos (by omega : a.toNat < c.toNat)]
      · rename_i h1
        split at hab
        · exact Bool.noConfusion hab
        · rename_i h2
          split at hbc
          · rename_i h3
            rw [if_pos (by omega : a.toNat < c.toNat)]
          · rename_i h3
            split at hbc
            · exact Bool.noConfusion hbc
            · rename_i h4
              rw [if_neg (by omega : ¬ a.toNat < c.toNat),
                if_neg (by omega : ¬ c.toNat < a.toNat)]
              exact lexLe_trans as bs cs hab hbc

theorem char_toNat_inj {a b : Char} (h : a.toNat = b.toNat) : a = b := by
  have := congrArg Char.ofNat h
  rwa [Char.ofNat_toNat, Char.ofNat_toNat] at this

theorem lexLe_antisymm :
    ∀ as bs : List Char, lexLe as bs = true → lexLe bs as = true → as = bs
  | [], [], _, _ => rfl
  | [], _ :: _, _, hba => by simp [lexLe] at hba
  | _ :: _, [], hab, _ => by simp [lexLe] at hab
  | a :: as, b :: bs, hab, hba => by
      simp only [lexLe] at hab hba
      rcases Nat.lt_trichotomy a.toNat b.toNat with h | h | h
      · exfalso
        have h1 : ¬ b.toNat < a.toNat := by omega
        simp [h, h1] at hba
      · have h1 : ¬ a.toNat < b.toNat := by omega
        have h2 : ¬ b.toNat < a.toNat := by omega
        simp only [h1, h2, if_false] at hab hba
        have : as = bs := lexLe_antisymm as bs hab hba
        rw [char_toNat_inj h, this]
      · exfalso
        have h1 : ¬ a.toNat < b.toNat := by omega
        simp [h, h1] at hab

theorem strLe_total (s t : String) : strLe s t = true ∨ strLe t s = true :=
  lexLe_total s.data t.data

theorem strLe_trans {s t u : String} (h₁ : strLe s t = true) (h₂ : strLe t u = true) :
    strLe s u = true :=
  lexLe_trans s.data t.data u.data h₁ h₂

theorem strLe_antisymm {s t : String} (h₁ : strLe s t = true) (h₂ : strLe t s = true) :
    s = t := by
  have h : s.data = t.data := lexLe_antisymm s.data t.data h₁ h₂
  exact String.toList_inj.mp h

/-- Whether the first character list is an initial segment of the
second. -/
def startsWithChars : List Char → List Char → Bool
  | [], _ => true
  | _ :: _, [] => false
  | p :: ps, c :: cs => p == c && startsWithChars ps cs

/-- Whether the string s starts with the string pat, on decomposed
character data. -/
def strStartsWith (s pat : String) : Bool := startsWithChars pat.data s.data

/-- Ordering of test methods by name. -/
def byName {σ : Type} (a b : TestMethod σ) : Prop := strLe a.name b.name = true

instance {σ : Type} : DecidableRel (byName (σ := σ)) :=
  fun a b => inferInstanceAs (Decidable (strLe a.name b.name = true))

instance {σ : Type} : IsTotal (TestMethod σ) byName :=
  ⟨fun a b => strLe_total a.name b.name⟩

instance {σ : Type} : IsTrans (TestMethod σ) byName :=
  ⟨fun _ _ _ h₁ h₂ => strLe_trans h₁ h₂⟩

/-- Modelled from the spec: discovery: keep exactly the methods whose names
begin with test, sorted by method name. -/
def discover {σ : Type} (ms : List (TestMethod σ)) : List (TestMethod σ) :=
  List.insertionSort byName (ms.filter (fun m => strStartsWith m.name "test"))

/-- The discovered test methods of a group. -/
def discovered {σ : Type} (g : TestCaseGroup σ) : List (TestMethod σ) :=
  discover g.methods

/-- Modelled from the spec: run every method of a suite in order, each from
the fresh context. -/
def runAll {σ : Type} (initCtx : σ) (setup : List (Stmt σ)) :
    List (TestMethod σ) → List MethodResult
  | [] => []
  | m :: ms => runMethod initCtx setup m :: runAll initCtx setup ms

/-- Modelled from the spec: the Report of one run of a group. -/
def run {σ : Type} (g : TestCaseGroup σ) : List MethodResult :=
  runAll g.initCtx (setUpOf g) (discovered g)

/-- The per-method line of the human-readable listing. -/
def outcomeLine (r : MethodResult) : String :=
  match r.outcome with
  | .pass => r.name ++ " ... ok"
  | .failure ds => r.name ++ " ... FAIL: " ++ String.intercalate ", " ds
  | .error d => r.name ++ " ... ERROR: " ++ d

/-- Counts of passes, failures and errors in a report. -/
def summaryCounts (rep : List MethodResult) : Nat × Nat × Nat :=
  (rep.countP (fun r => r.outcome == .pass),
   rep.countP (fun r => match r.outcome with | .failure _ => true | _ => false),
   rep.countP (fun r => match r.outcome with | .error _ => true | _ => false))

/-- The trailing summary line of the listing. -/
def summaryLine (rep : List MethodResult) : String :=
  "passed " ++ toString (summaryCounts rep).1 ++ ", failures " ++
    toString (summaryCounts rep).2.1 ++ ", errors " ++ toString (summaryCounts rep).2.2

/-- Modelled from the spec: the loader resolves the group into the suite of
discovered test methods (loader.loadTestsFromTestCase in cell 1). -/
def loadTestsFromTestCase {σ : Type} (g : TestCaseGroup σ) : List (TestMethod σ) :=
  discover g.methods

/-- Modelled from the spec: the runner runs the suite and returns the
Report together with the emitted output lines: one listing line per method
and a trailing summary (runner.run in cell 1). -/
def runnerRun {σ : Type} (g : TestCaseGroup σ) (suite : List (TestMethod σ)) :
    List MethodResult × List String :=
  let rep := runAll g.initCtx (setUpOf g) suite
  (rep, rep.map outcomeLine ++ [summaryLine rep])

/-- The entry point of cell 1: build the suite with the loader, run it with
the runner, emit the output. The Python function has no return statement,
so its returned Report component is none. -/
def test {σ : Type} (g : TestCaseGroup σ) : Option (List MethodResult) × List String :=
  let suite := loadTestsFromTestCase g
  let r := runnerRun g suite
  (none, r.2)

/-- Reading n bytes from /dev/zero yields n NUL characters. -/
def devZeroRead (n : Nat) : String :=
  String.mk (List.replicate n (Char.ofNat 0))

/-- Cell 3: class TestSimpleFailure, whose test_fail computes 1/0, raising
ZeroDivisionError. -/
def TestSimpleFailure : TestCaseGroup Unit :=
  ⟨"TestSimpleFailure",
   [⟨"test_fail", [.prim (.raiseExc "ZeroDivisionError: division by zero")]⟩],
   ()⟩

/-- Cell 6: class TestEquality, whose test_paradox asserts that 1 equals
0. -/
def TestEquality : TestCaseGroup Unit :=
  ⟨"TestEquality",
   [⟨"test_paradox",
     [.prim (.assertThat (fun _ => (1 : Int) == 0)
       (fun _ => "Expected: <0> but: was <1>"))]⟩],
   ()⟩

/-- Render the fixture value of TestMultipleEquality. -/
def optIntStr : Option Int → String
  | none => "unset"
  | some n => toString n

/-- Cell 8: class TestMultipleEquality: setUp binds self.value to 1;
test_paradox asserts the value equals 0 and test_anoter_paradox asserts it
equals 2. -/
def TestMultipleEquality : TestCaseGroup (Option Int) :=
  ⟨"TestMultipleEquality",
   [⟨"setUp", [.prim (.set (fun _ => some 1))]⟩,
    ⟨"test_paradox",
     [.prim (.assertThat (fun v => v == some 0)
       (fun v => "Expected: <0> but: was <" ++ optIntStr v ++ ">"))]⟩,
    ⟨"test_anoter_paradox",
     [.prim (.assertThat (fun v => v == some 2)
       (fun v => "Expected: <2> but: was <" ++ optIntStr v ++ ">"))]⟩],
   none⟩

/-- Cell 10: class TestRead: test_read registers a cleanup closing the
file, opens /dev/zero, and asserts that a 4-byte read is empty. -/
def TestRead : TestCaseGroup Unit :=
  ⟨"TestRead",
   [⟨"test_read",
     [.prim (.addCleanup ⟨0, true⟩),
      .prim (.set id),
      .prim (.assertThat (fun _ => devZeroRead 4 == "")
        (fun _ => "Expected: an empty string but: was a 4 byte read"))]⟩],
   ()⟩

/-- Cell 12: class TestDoubleRead: setUp registers the closing cleanup and
opens /dev/zero; the two tests assert that 4-byte and 8-byte reads are
empty. -/
def TestDoubleRead : TestCaseGroup Unit :=
  ⟨"TestDoubleRead",
   [⟨"setUp", [.prim (.addCleanup ⟨0, true⟩), .prim (.set id)]⟩,
    ⟨"test_short_read",
     [.prim (.assertThat (fun _ => devZeroRead 4 == "")
       (fun _ => "Expected: an empty string but: was a 4 byte read"))]⟩,
    ⟨"test_long_read",
     [.prim (.assertThat (fun _ => devZeroRead 8 == "")
       (fun _ => "Expected: an empty string but: was an 8 byte read"))]⟩],
   ()⟩

/-- One loop iteration of cell 14: a SubTest labelled with the length,
asserting that a read of that many bytes is empty. -/
def readSubTest (n : Nat) : Stmt Unit :=
  .subTest ("length=" ++ toString n)
    [.assertThat (fun _ => devZeroRead n == "")
      (fun _ => "Expected: an empty string but: was a " ++ toString n ++ " byte read")]

/-- Cell 14: class TestMultiRead: test_all_reads registers the closing
cleanup, opens /dev/zero once, and iterates SubTests over lengths 1, 4,
8. -/
def TestMultiRead : TestCaseGroup Unit :=
  ⟨"TestMultiRead",
   [⟨"test_all_reads",
     [.prim (.addCleanup ⟨0, true⟩),
      .prim (.set id),
      readSubTest 1, readSubTest 4, readSubTest 8]⟩],
   ()⟩

/-- One loop iteration of cell 16: a SubTest labelled with the length that
opens /dev/zero itself, asserts the read is empty, and closes the file on
leaving the with-block. -/
def readSepSubTest (n : Nat) : Stmt Unit :=
  .subTest ("length=" ++ toString n)
    [.set id,
     .assertThat (fun _ => devZeroRead n == "")
       (fun _ => "Expected: an empty string but: was a " ++ toString n ++ " byte read"),
     .set id]

/-- Cell 16: class TestMultiSeparateRead: test_all_reads iterates SubTests
over lengths 1, 4, 8, each opening its own file. -/
def TestMultiSeparateRead : TestCaseGroup Unit :=
  ⟨"TestMultiSeparateRead",
   [⟨"test_all_reads", [readSepSubTest 1, readSepSubTest 4, readSepSubTest 8]⟩],
   ()⟩

/-- The cleanup actions a run of the method registers, in registration
order: those registered by the setup, and, when the setup completed
normally, those registered by the body after it. -/
def registrationsOf {σ : Type} (initCtx : σ) (setup : List (Stmt σ)) (m : TestMethod σ) :
    List Cleanup :=
  match (execStmts setup initCtx [] []).result with
  | some _ => (execStmts setup initCtx [] []).cleanups
  | none =>
      (execStmts m.body (execStmts setup initCtx [] []).ctx
        (execStmts setup initCtx [] []).cleanups
        (execStmts setup initCtx [] []).subFailures).cleanups

/-- Replace whether a cleanup action succeeds, keeping its identity. -/
def setOkCleanup (b : Bool) (c : Cleanup) : Cleanup := ⟨c.cid, b⟩

/-- Replace the success of every cleanup registered by a primitive
statement. -/
def setOkPrim {σ : Type} (b : Bool) : PrimStmt σ → PrimStmt σ
  | .addCleanup c => .addCleanup (setOkCleanup b c)
  | p => p

/-- Replace the success of every cleanup registered by a statement. -/
def setOkStmt {σ : Type} (b : Bool) : Stmt σ → Stmt σ
  | .prim p => .prim (setOkPrim b p)
  | .subTest label inner => .subTest label (inner.map (setOkPrim b))

/-- Replace the success of every cleanup a method registers. -/
def setOkMethod {σ : Type} (b : Bool) (m : TestMethod σ) : TestMethod σ :=
  ⟨m.name, m.body.map (setOkStmt b)⟩

theorem runCleanupList_fst : ∀ l : List Cleanup, (runCleanupList l).1 = l.map Cleanup.cid
  | [] => rfl
  | c :: rest => by simp [runCleanupList, runCleanupList_fst rest]

theorem runCleanupList_snd :
    ∀ l : List Cleanup, (runCleanupList l).2 = (l.filter (fun c => !c.ok)).map Cleanup.cid
  | [] => rfl
  | c :: rest => by
      by_cases h : c.ok <;> simp [runCleanupList, runCleanupList_snd rest, h, List.filter]

theorem drainCleanups_fst (cs : List Cleanup) :
    (drainCleanups cs).1 = cs.reverse.map Cleanup.cid :=
  runCleanupList_fst cs.reverse

theorem drainCleanups_snd (cs : List Cleanup) :
    (drainCleanups cs).2 = (cs.reverse.filter (fun c => !c.ok)).map Cleanup.cid :=
  runCleanupList_snd cs.reverse

theorem runMethod_name {σ : Type} (initCtx : σ) (setup : List (Stmt σ)) (m : TestMethod σ) :
    (runMethod initCtx setup m).name = m.name := by
  unfold runMethod
  split <;> rfl

theorem runAll_length {σ : Type} (initCtx : σ) (setup : List (Stmt σ)) :
    ∀ ms : List (TestMethod σ), (runAll initCtx setup ms).length = ms.length
  | [] => rfl
  | m :: ms => by simp [runAll, runAll_length initCtx setup ms]

theorem runAll_getElem? {σ : Type} (initCtx : σ) (setup : List (Stmt σ)) :
    ∀ (ms : List (TestMethod σ)) (n : Nat),
      (runAll initCtx setup ms)[n]? = (ms[n]?).map (runMethod initCtx setup)
  | [], n => by simp [runAll]
  | m :: ms, 0 => by simp [runAll]
  | m :: ms, n + 1 => by
      simp [runAll, runAll_getElem? initCtx setup ms n]

theorem runAll_map_name {σ : Type} (initCtx : σ) (setup : List (Stmt σ)) :
    ∀ ms : List (TestMethod σ),
      (runAll initCtx setup ms).map (fun r => r.name) = ms.map (fun m => m.name)
  | [] => rfl
  | m :: ms => by
      simp [runAll, runAll_map_name initCtx setup ms, runMethod_name]

theorem runAll_append {σ : Type} (initCtx : σ) (setup : List (Stmt σ)) :
    ∀ l₁ l₂ : List (TestMethod σ),
      runAll initCtx setup (l₁ ++ l₂) = runAll initCtx setup l₁ ++ runAll initCtx setup l₂
  | [], _ => rfl
  | m :: ms, l₂ => by simp [runAll, runAll_append initCtx setup ms l₂]

theorem execPrims_setOk {σ : Type} (b : Bool) :
    ∀ (l : List (PrimStmt σ)) (s : σ) (cs : List Cleanup),
      execPrims (l.map (setOkPrim b)) s (cs.map (setOkCleanup b)) =
        ⟨(execPrims l s cs).result, (execPrims l s cs).ctx,
          (execPrims l s cs).cleanups.map (setOkCleanup b)⟩
  | [], s, cs => rfl
  | .set f :: rest, s, cs => by
      simp [execPrims, setOkPrim, execPrims_setOk b rest (f s) cs]
  | .assertThat p d :: rest, s, cs => by
      by_cases h : p s <;> simp [execPrims, setOkPrim, h, execPrims_setOk b rest s cs]
  | .raiseExc d :: rest, s, cs => rfl
  | .addCleanup c :: rest, s, cs => by
      have := execPrims_setOk b rest s (cs ++ [c])
      simpa [execPrims, setOkPrim] using this

theorem execStmts_setOk {σ : Type} (b : Bool) :
    ∀ (l : List (Stmt σ)) (s : σ) (cs : List Cleanup) (subs : List String),
      execStmts (l.map (setOkStmt b)) s (cs.map (setOkCleanup b)) subs =
        ⟨(execStmts l s cs subs).result, (execStmts l s cs subs).ctx,
          (execStmts l s cs subs).cleanups.map (setOkCleanup b),
          (execStmts l s cs subs).subFailures⟩
  | [], s, cs, subs => rfl
  | .prim (.set f) :: rest, s, cs, subs => by
      simp [execStmts, setOkStmt, setOkPrim, execStmts_setOk b rest (f s) cs subs]
  | .prim (.assertThat p d) :: rest, s, cs, subs => by
      by_cases h : p s <;>
        simp [execStmts, setOkStmt, setOkPrim, h, execStmts_setOk b rest s cs subs]
  | .prim (.raiseExc d) :: rest, s, cs, subs => rfl
  | .prim (.addCleanup c) :: rest, s, cs, subs => by
      have := execStmts_setOk b rest s (cs ++ [c]) subs
      simpa [execStmts, setOkStmt, setOkPrim] using this
  | .subTest label inner :: rest, s, cs, subs => by
      have hp := execPrims_setOk b inner s cs
      simp only [List.map_cons, setOkStmt, execStmts, hp]
      cases hres : (execPrims inner s cs).result with
      | none => simp [execStmts_setOk b rest (execPrims inner s cs).ctx
          (execPrims inner s cs).cleanups subs]
      | some e =>
          cases e with
          | assertionFailed d =>
              simp [execStmts_setOk b rest (execPrims inner s cs).ctx
                (execPrims inner s cs).cleanups (subs ++ [label])]
          | otherError d => simp

theorem sorted_perm_nodup_eq {σ : Type} :
    ∀ l₁ l₂ : List (TestMethod σ), l₁.Perm l₂ → List.Sorted byName l₁ →
      List.Sorted byName l₂ → (l₁.map (fun m => m.name)).Nodup → l₁ = l₂
  | [], l₂, hp, _, _, _ => (hp.symm.eq_nil).symm
  | a :: t, [], hp, _, _, _ => by simpa using hp.eq_nil
  | a :: t, b :: t₂, hp, hs₁, hs₂, hnd => by
      have hab : a = b := by
        have ha : a ∈ b :: t₂ := hp.subset (List.mem_cons_self a t)
        rcases List.mem_cons.mp ha with h | h
        · exact h
        · have h1 : byName b a := List.rel_of_sorted_cons hs₂ a h
          have hb : b ∈ a :: t := hp.symm.subset (List.mem_cons_self b t₂)
          rcases List.mem_cons.mp hb with h' | h'
          · exact h'.symm
          · have h2 : byName a b := List.rel_of_sorted_cons hs₁ b h'
            have hname : a.name = b.name := strLe_antisymm h2 h1
            exfalso
            have hmem : a.name ∈ t.map (fun m => m.name) := by
              rw [hname]
              exact List.mem_map_of_mem (fun m => m.name) h'
            simp only [List.map_cons, List.nodup_cons] at hnd
            exact hnd.1 hmem
      subst hab
      have htail : t.Perm t₂ := hp.cons_inv
      have : t = t₂ := by
        apply sorted_perm_nodup_eq t t₂ htail hs₁.of_cons hs₂.of_cons
        simp only [List.map_cons, List.nodup_cons] at hnd
        exact hnd.2
      rw [this]

/-- Claim C1: a method body raising the assertion-violation signal is
recorded as Failure with the violation detail, and a body raising any
other exception is recorded as Error; the classifications are never
swapped. Concretely, the group with one method computing 1/0 yields Error
and the group with one method asserting 1 equals 0 yields Failure. -/
theorem c1_classification :
    (∀ (σ : Type) (initCtx : σ) (setup : List (Stmt σ)) (m : TestMethod σ) (d : String),
      (execStmts setup initCtx [] []).result = none →
      (execStmts m.body (execStmts setup initCtx [] []).ctx
        (execStmts setup initCtx [] []).cleanups
        (execStmts setup initCtx [] []).subFailures).result = some (.assertionFailed d) →
      (runMethod initCtx setup m).outcome = .failure [d]) ∧
    (∀ (σ : Type) (initCtx : σ) (setup : List (Stmt σ)) (m : TestMethod σ) (d : String),
      (execStmts setup initCtx [] []).result = none →
      (execStmts m.body (execStmts setup initCtx [] []).ctx
        (execStmts setup initCtx [] []).cleanups
        (execStmts setup initCtx [] []).subFailures).result = some (.otherError d) →
      (runMethod initCtx setup m).outcome = .error d) ∧
    run TestSimpleFailure =
      [⟨"test_fail", .error "ZeroDivisionError: division by zero", [], []⟩] ∧
    run TestEquality =
      [⟨"test_paradox", .failure ["Expected: <0> but: was <1>"], [], []⟩] := by
  have hfail : ∀ (σ : Type) (initCtx : σ) (setup : List (Stmt σ)) (m : TestMethod σ)
      (d : String),
      (execStmts setup initCtx [] []).result = none →
      (execStmts m.body (execStmts setup initCtx [] []).ctx
        (execStmts setup initCtx [] []).cleanups
        (execStmts setup initCtx [] []).subFailures).result = some (.assertionFailed d) →
      (runMethod initCtx setup m).outcome = .failure [d] := by
    intro σ i setup m d h₁ h₂
    unfold runMethod
    rw [h₁]
    simp [bodyOutcome, h₂]
  have herr : ∀ (σ : Type) (initCtx : σ) (setup : List (Stmt σ)) (m : TestMethod σ)
      (d : String),
      (execStmts setup initCtx [] []).result = none →
      (execStmts m.body (execStmts setup initCtx [] []).ctx
        (execStmts setup initCtx [] []).cleanups
        (execStmts setup initCtx [] []).subFailures).result = some (.otherError d) →
      (runMethod initCtx setup m).outcome = .error d := by
    intro σ i setup m d h₁ h₂
    unfold runMethod
    rw [h₁]
    simp [bodyOutcome, h₂]
  exact ⟨hfail, herr, by decide, by decide⟩

/-- Witness for C1: the classification theorem applied to the concrete
bodies of cell 6 (the assertion that 1 equals 0) and cell 3 (the division
by zero). -/
theorem c1_classification_witness :
    (runMethod () [] ⟨"test_paradox",
        [.prim (.assertThat (fun _ => (1 : Int) == 0)
          (fun _ => "Expected: <0> but: was <1>"))]⟩).outcome =
      .failure ["Expected: <0> but: was <1>"] ∧
    (runMethod () [] ⟨"test_fail",
        [.prim (.raiseExc "ZeroDivisionError: division by zero")]⟩).outcome =
      .error "ZeroDivisionError: division by zero" :=
  ⟨c1_classification.1 Unit () [] _ "Expected: <0> but: was <1>" rfl (by decide),
   c1_classification.2.1 Unit () [] _ "ZeroDivisionError: division by zero" rfl (by decide)⟩

/-- Claim C2: one run of a group reports exactly as many outcomes as there
are discovered test methods, one per method and in order, each identified
by its method name. -/
theorem c2_report_exactly_n :
    ∀ (σ : Type) (g : TestCaseGroup σ),
      (run g).length = (discovered g).length ∧
      (run g).map (fun r => r.name) = (discovered g).map (fun m => m.name) :=
  fun _ g =>
    ⟨runAll_length g.initCtx (setUpOf g) (discovered g),
     runAll_map_name g.initCtx (setUpOf g) (discovered g)⟩

/-- Claim C3: the executed cleanup trace of every method run is exactly
the reverse of the registration-order list (so each registered action runs
exactly once, counted with multiplicity), also when the body raised: the
runs of cells 10 and 12, whose assertions all fail, still execute their
registered cleanup. -/
theorem c3_cleanups_reverse_exactly_once :
    (∀ (σ : Type) (initCtx : σ) (setup : List (Stmt σ)) (m : TestMethod σ),
      (runMethod initCtx setup m).cleanupsExecuted =
        ((registrationsOf initCtx setup m).reverse).map Cleanup.cid) ∧
    (∀ (σ : Type) (initCtx : σ) (setup : List (Stmt σ)) (m : TestMethod σ) (n : Nat),
      ((runMethod initCtx setup m).cleanupsExecuted).count n =
        ((registrationsOf initCtx setup m).map Cleanup.cid).count n) ∧
    run TestRead =
      [⟨"test_read", .failure ["Expected: an empty string but: was a 4 byte read"],
        [0], []⟩] ∧
    run TestDoubleRead =
      [⟨"test_long_read", .failure ["Expected: an empty string but: was an 8 byte read"],
        [0], []⟩,
       ⟨"test_short_read", .failure ["Expected: an empty string but: was a 4 byte read"],
        [0], []⟩] := by
  have hmain : ∀ (σ : Type) (initCtx : σ) (setup : List (Stmt σ)) (m : TestMethod σ),
      (runMethod initCtx setup m).cleanupsExecuted =
        ((registrationsOf initCtx setup m).reverse).map Cleanup.cid := by
    intro σ i setup m
    unfold runMethod registrationsOf
    cases h : (execStmts setup i [] []).result with
    | some e => simp [drainCleanups_fst]
    | none => simp [drainCleanups_fst]
  refine ⟨hmain, ?_, by decide, by decide⟩
  intro σ i setup m n
  rw [hmain]
  rw [List.map_reverse, List.count_reverse]

/-- Claim C4: a failing assertion inside a SubTest scope does not abort
the rest of the method body: execution continues after the scope with the
failure attributed to the label; the runs of cells 14 and 16 each record
one Failure listing the three failing labels length=1, length=4,
length=8. -/
theorem c4_subtest_continuation :
    (∀ (σ : Type) (s : σ) (cs : List Cleanup) (subs : List String) (label : String)
        (inner : List (PrimStmt σ)) (rest : List (Stmt σ)) (d : String),
      (execPrims inner s cs).result = some (.assertionFailed d) →
      execStmts (.subTest label inner :: rest) s cs subs =
        execStmts rest (execPrims inner s cs).ctx (execPrims inner s cs).cleanups
          (subs ++ [label])) ∧
    run TestMultiRead =
      [⟨"test_all_reads", .failure ["length=1", "length=4", "length=8"], [0], []⟩] ∧
    run TestMultiSeparateRead =
      [⟨"test_all_reads", .failure ["length=1", "length=4", "length=8"], [], []⟩] := by
  refine ⟨?_, by decide, by decide⟩
  intro σ s cs subs label inner rest d h
  simp [execStmts, h]

/-- Witness for C4: the continuation theorem applied to a concrete SubTest
scope with a failing assertion. -/
theorem c4_subtest_continuation_witness :
    execStmts [Stmt.subTest "L" [.assertThat (fun _ => false) (fun _ => "boom")]] () [] [] =
      execStmts ([] : List (Stmt Unit))
        (execPrims [PrimStmt.assertThat (fun _ => false) (fun _ => "boom")] () []).ctx
        (execPrims [PrimStmt.assertThat (fun _ => false) (fun _ => "boom")] () []).cleanups
        ([] ++ ["L"]) :=
  c4_subtest_continuation.1 Unit () [] [] "L"
    [PrimStmt.assertThat (fun _ => false) (fun _ => "boom")] [] "boom" rfl

/-- Claim C5: each method starts from the freshly created instance context
and its own run of the setup, so fixture state is never threaded from one
method to the next: running a concatenation of methods is the
concatenation of independent runs, and the run of cell 8 records two
independent Failures, each observing the freshly bound value 1. -/
theorem c5_fresh_fixture :
    (∀ (σ : Type) (initCtx : σ) (setup : List (Stmt σ)) (l₁ l₂ : List (TestMethod σ)),
      runAll initCtx setup (l₁ ++ l₂) =
        runAll initCtx setup l₁ ++ runAll initCtx setup l₂) ∧
    run TestMultipleEquality =
      [⟨"test_anoter_paradox", .failure ["Expected: <2> but: was <1>"], [], []⟩,
       ⟨"test_paradox", .failure ["Expected: <0> but: was <1>"], [], []⟩] :=
  ⟨fun _ i s l₁ l₂ => runAll_append i s l₁ l₂, by decide⟩

/-- Claim C6: the primary outcome of a method never depends on whether its
cleanup actions succeed (flipping every cleanup success flag leaves the
outcome unchanged, so a cleanup failure never overwrites a Failure or
Error and never escalates a Pass), while each failed cleanup is reported
in the cleanup-failure list; concretely a passing method with a failing
cleanup stays Pass and reports the failing identifier. -/
theorem c6_cleanup_failure_no_escalation :
    (∀ (σ : Type) (b : Bool) (initCtx : σ) (setup : List (Stmt σ)) (m : TestMethod σ),
      (runMethod initCtx (setup.map (setOkStmt b)) (setOkMethod b m)).outcome =
        (runMethod initCtx setup m).outcome) ∧
    (∀ (σ : Type) (initCtx : σ) (setup : List (Stmt σ)) (m : TestMethod σ),
      (runMethod initCtx setup m).cleanupFailures =
        ((registrationsOf initCtx setup m).reverse.filter (fun c => !c.ok)).map
          Cleanup.cid) ∧
    (runMethod () [] ⟨"test_fine", [.prim (.addCleanup ⟨7, false⟩)]⟩).outcome = .pass ∧
    (runMethod () [] ⟨"test_fine", [.prim (.addCleanup ⟨7, false⟩)]⟩).cleanupFailures =
      [7] := by
  refine ⟨?_, ?_, by decide, by decide⟩
  · intro σ b i setup m
    have hs := execStmts_setOk b setup i [] []
    unfold runMethod
    rw [show (([] : List Cleanup).map (setOkCleanup b)) = [] from rfl] at hs
    rw [hs]
    cases h : (execStmts setup i [] []).result with
    | some e => simp
    | none =>
        have hb := execStmts_setOk b m.body (execStmts setup i [] []).ctx
          (execStmts setup i [] []).cleanups (execStmts setup i [] []).subFailures
        simp [setOkMethod, hb, bodyOutcome]
  · intro σ i setup m
    unfold runMethod registrationsOf
    cases h : (execStmts setup i [] []).result with
    | some e => simp [drainCleanups_snd]
    | none => simp [drainCleanups_snd]

/-- Claim C7: the harness never aborts the run at a failing or erroring
method: the result at every position of the report is computed from that
method alone, so every later method is run regardless of earlier
outcomes; in the run of cell 8 the second method is reported although the
first failed. -/
theorem c7_isolation :
    (∀ (σ : Type) (g : TestCaseGroup σ) (n : Nat),
      (run g)[n]? = ((discovered g)[n]?).map (runMethod g.initCtx (setUpOf g))) ∧
    (run TestMultipleEquality)[1]? =
      some ⟨"test_paradox", .failure ["Expected: <0> but: was <1>"], [], []⟩ :=
  ⟨fun _ g n => runAll_getElem? g.initCtx (setUpOf g) (discovered g) n, by decide⟩

/-- Claim C8 counterexample: the entry point test(klass) of cell 1 has no
return statement, so its returned Report component is not the computed
Report: the claim that the invocation operation returns the Report fails
at the concrete group of cell 6. -/
theorem c8_returns_report_counterexample :
    ¬ ((test TestEquality).1 = some (run TestEquality)) := by decide

/-- Claim C8 (amended): the runner computes the Report, and the entry
point emits the per-method listing followed by the trailing summary of
pass, failure and error counts to the output sink, but returns no value,
discarding the Report. -/
theorem c8_report_computed_output_emitted :
    ∀ (σ : Type) (g : TestCaseGroup σ),
      (runnerRun g (loadTestsFromTestCase g)).1 = run g ∧
      (test g).1 = none ∧
      (test g).2 = (run g).map outcomeLine ++ [summaryLine (run g)] :=
  fun _ _ => ⟨rfl, rfl, rfl⟩

/-- Claim C9: an exception raised by the setup procedure is recorded as an
Error for that method and the method body is skipped (the result is
independent of the body); and every position of a run is computed from its
own method alone, so one setup failure affects no other method. -/
theorem c9_setup_error :
    (∀ (σ : Type) (initCtx : σ) (setup : List (Stmt σ)) (m : TestMethod σ) (e : Exc),
      (execStmts setup initCtx [] []).result = some e →
      (runMethod initCtx setup m).outcome = .error e.detail ∧
      ∀ altBody : List (Stmt σ),
        runMethod initCtx setup m = runMethod initCtx setup ⟨m.name, altBody⟩) ∧
    (∀ (σ : Type) (initCtx : σ) (setup : List (Stmt σ)) (ms : List (TestMethod σ))
        (n : Nat),
      (runAll initCtx setup ms)[n]? = (ms[n]?).map (runMethod initCtx setup)) := by
  refine ⟨?_, fun _ i s ms n => runAll_getElem? i s ms n⟩
  intro σ i setup m e h
  constructor
  · unfold runMethod
    rw [h]
  · intro altBody
    unfold runMethod
    rw [h]

/-- Witness for C9: the setup-error theorem applied to a concrete setup
that raises, with a body that would raise a different error were it
run. -/
theorem c9_setup_error_witness :
    (runMethod () [Stmt.prim (.raiseExc "SetupExploded")]
        ⟨"test_skipped", [Stmt.prim (.raiseExc "BodyExploded")]⟩).outcome =
      .error "SetupExploded" ∧
    runMethod () [Stmt.prim (.raiseExc "SetupExploded")]
        ⟨"test_skipped", [Stmt.prim (.raiseExc "BodyExploded")]⟩ =
      runMethod () [Stmt.prim (.raiseExc "SetupExploded")] ⟨"test_skipped", []⟩ := by
  have h := c9_setup_error.1 Unit () [Stmt.prim (.raiseExc "SetupExploded")]
    ⟨"test_skipped", [Stmt.prim (.raiseExc "BodyExploded")]⟩
    (.otherError "SetupExploded") rfl
  exact ⟨h.1, h.2 []⟩

/-- Claim C10: discovery keeps exactly the methods whose names begin with
test (so a setUp entry is never run as a test), the discovered list is
sorted by method name, and it is independent of the definition order of
the methods (for distinct names); in cell 8, test_anoter_paradox is
discovered before test_paradox although defined after it. -/
theorem c10_discovery :
    (∀ (σ : Type) (ms : List (TestMethod σ)) (m : TestMethod σ),
      m ∈ discover ms ↔ m ∈ ms ∧ strStartsWith m.name "test" = true) ∧
    (∀ (σ : Type) (ms : List (TestMethod σ)), List.Sorted byName (discover ms)) ∧
    (∀ (σ : Type) (ms₁ ms₂ : List (TestMethod σ)),
      ms₁.Perm ms₂ → (ms₁.map (fun m => m.name)).Nodup →
      discover ms₁ = discover ms₂) ∧
    (discovered TestMultipleEquality).map (fun m => m.name) =
      ["test_anoter_paradox", "test_paradox"] ∧
    "setUp" ∉ (discovered TestMultipleEquality).map (fun m => m.name) := by
  refine ⟨?_, ?_, ?_, by decide, by decide⟩
  · intro σ ms m
    unfold discover
    rw [List.mem_insertionSort, List.mem_filter]
  · intro σ ms
    exact List.sorted_insertionSort byName _
  · intro σ ms₁ ms₂ hperm hnd
    unfold discover
    apply sorted_perm_nodup_eq
    · exact ((List.perm_insertionSort byName _).trans
        (hperm.filter _)).trans (List.perm_insertionSort byName _).symm
    · exact List.sorted_insertionSort byName _
    · exact List.sorted_insertionSort byName _
    · have h1 : (ms₁.filter (fun m => strStartsWith m.name "test")).Sublist ms₁ :=
        List.filter_sublist ms₁
      have h3 : ((ms₁.filter (fun m => strStartsWith m.name "test")).map
          (fun m => m.name)).Nodup :=
        hnd.sublist (h1.map (fun m => m.name))
      have h4 : List.Perm
          ((List.insertionSort byName
            (ms₁.filter (fun m => strStartsWith m.name "test"))).map (fun m => m.name))
          ((ms₁.filter (fun m => strStartsWith m.name "test")).map (fun m => m.name)) :=
        (List.perm_insertionSort byName _).map (fun m => m.name)
      exact (h4.nodup_iff).mpr h3

/-- Witness for C10: discovery applied to the methods of cell 8 in
reversed definition order yields the same discovered list. -/
theorem c10_discovery_witness :
    discover (TestMultipleEquality.methods.reverse) = discover TestMultipleEquality.methods :=
  c10_discovery.2.2.1 (Option Int) TestMultipleEquality.methods.reverse
    TestMultipleEquality.methods (List.reverse_perm TestMultipleEquality.methods) (by decide)

end UnitTesting
